import Mathlib

/-!
Verification of the synapse-engine semantic pipeline.

Shallow embedding of the Python source:
* `agents/tools/owl_reasoner.py` (`OWLReasoningAgent`),
* `agents/domain/services/ingestion_service.py` (`IngestionService`),
* `agents/validation/ontology_validator.py` (`OntologyValidator`),
* `agents/infrastructure/persistence/vector_store.py` (`VectorStore`),
* `python-sdk/.../infrastructure/web/mcp_server.py` (`MCPServer`),
* `python-sdk/.../infrastructure/retrieval/sparql_engine.py` (`SPARQLEngine`).

Conventions: RDF terms are plain strings (rdflib `URIRef`/`Literal` both
stringify); an rdflib `Graph` and every Python `set` is a duplicate-free
`List` maintained by insert-if-absent (`setInsert`).  The iteration order of
a Python set is unspecified, so no theorem below depends on the order of a
set-derived list except where it has at most one element.
-/

namespace Synapse

/-- An RDF triple `(subject, predicate, object)`, terms as strings. -/
abbrev Triple := String × String × String

/-! Section: Namespace constants (rdflib `RDF`, `RDFS`, `OWL`, and the agent's own) -/

def rdfNS : String := "http://www.w3.org/1999/02/22-rdf-syntax-ns#"
def rdfsNS : String := "http://www.w3.org/2000/01/rdf-schema#"
def owlNS : String := "http://www.w3.org/2002/07/owl#"
def sysNS : String := "http://sys.semantic/"
def agrNS : String := "http://sys.semantic/agriculture#"

def rdfType : String := rdfNS ++ "type"
def rdfsSubClassOf : String := rdfsNS ++ "subClassOf"
def rdfsDomain : String := rdfsNS ++ "domain"
def rdfsRange : String := rdfsNS ++ "range"
def owlSymmetricProperty : String := owlNS ++ "SymmetricProperty"
def owlTransitiveProperty : String := owlNS ++ "TransitiveProperty"
def owlInverseOf : String := owlNS ++ "inverseOf"
def owlObjectProperty : String := owlNS ++ "ObjectProperty"
def owlDatatypeProperty : String := owlNS ++ "DatatypeProperty"

/-! Section: Set-as-list primitives -/

/-- Add an element to a duplicate-free list unless already present
(Python `set.add` / rdflib `Graph.add`). -/
def setInsert {α : Type} [DecidableEq α] (acc : List α) (x : α) : List α :=
  if x ∈ acc then acc else acc ++ [x]

/-- Union of duplicate-free lists (Python `set.update`). -/
def setUnion {α : Type} [DecidableEq α] (acc new : List α) : List α :=
  new.foldl setInsert acc

/-- Collapse a list with duplicates into a set-as-list (building a Python
set from an iterable). -/
def asSet {α : Type} [DecidableEq α] (l : List α) : List α :=
  l.foldl setInsert []

/-! Section: String helpers mirroring Python string methods -/

/-- Python `s.split(c)[-1]`: the suffix of `s` after the last occurrence of
the character `c` (the whole string when `c` does not occur). -/
def afterLastAux (sep : Char) : List Char → List Char → List Char
  | [], acc => acc
  | c :: cs, acc =>
      if c = sep then afterLastAux sep cs []
      else afterLastAux sep cs (acc ++ [c])

def afterLast (sep : Char) (s : String) : String :=
  ⟨afterLastAux sep s.data []⟩

/-- Python `str(x).split('/')[-1]`, the truncation `OWLReasoningAgent.infer`
applies to every term of an inferred triple (owl_reasoner.py lines 91-93). -/
def lastSlashSegment (s : String) : String := afterLast '/' s

/-- Truncation applied to a whole triple. -/
def truncTriple (t : Triple) : Triple :=
  (lastSlashSegment t.1, lastSlashSegment t.2.1, lastSlashSegment t.2.2)

/-- Python `startswith` on character lists (`charsLead pat l` holds when `pat`
leads `l`); structural, so the kernel can evaluate it. -/
def charsLead : List Char → List Char → Bool
  | [], _ => true
  | _ :: _, [] => false
  | c :: cs, d :: ds => c = d && charsLead cs ds

/-- Python `s.startswith(pat)`. -/
def strStartsWith (s pat : String) : Bool := charsLead pat.data s.data

/-- Split at the first occurrence of `sep`, or `none` when absent. -/
def splitFirstAux (sep : Char) : List Char → List Char → Option (List Char × List Char)
  | [], _ => none
  | c :: cs, acc => if c = sep then some (acc, cs) else splitFirstAux sep cs (acc ++ [c])

/-- Python `concept.split(":", 1)` when `":" in concept`:
the prefix before the first colon and the remainder (`none` when `":"` does
not occur, i.e. the `if ":" in concept` guard fails). -/
def splitCurie (s : String) : Option (String × String) :=
  match splitFirstAux ':' s.data [] with
  | some (p, l) => some (⟨p⟩, ⟨l⟩)
  | none => none

/-! Section: `OWLReasoningAgent` (agents/tools/owl_reasoner.py)

The agent holds a fixed `ontology` graph (constructor argument) and reasons
over a temporary graph built from the input triples.  All helpers below take
the ontology explicitly. -/

/-- Step 2 of `_resolve_concept_to_uri`: subjects of the ontology whose
`'#'`-fragment equals the concept, in graph iteration order. -/
def resolveConceptMatches (ont : List Triple) (c : String) : List String :=
  (ont.map (·.1)).filter (fun s => afterLast '#' s = c)

/-- Steps 3-5 of `_resolve_single_uri` (after the full-URI and CURIE checks):
agriculture-namespace probe, fragment search, default-namespace fallback. -/
def resolveFallback (ont : List Triple) (c : String) : String :=
  let agrUri := agrNS ++ c
  if ont.any (fun t => t.1 = agrUri || t.2.2 = agrUri) then agrUri
  else
    match resolveConceptMatches ont c with
    | m :: _ => m
    | [] => sysNS ++ c

/-- Model of `OWLReasoningAgent._resolve_single_uri(concept, SYS)`. -/
def resolveSingleUri (ont : List Triple) (c : String) : String :=
  if strStartsWith c "http" then c
  else
    match splitCurie c with
    | some (p, l) =>
        if p = "rdf" then rdfNS ++ l
        else if p = "rdfs" then rdfsNS ++ l
        else if p = "owl" then owlNS ++ l
        else resolveFallback ont c
    | none => resolveFallback ont c

def resolveTriple (ont : List Triple) (t : Triple) : Triple :=
  (resolveSingleUri ont t.1, resolveSingleUri ont t.2.1, resolveSingleUri ont t.2.2)

/-- The `temp_graph` built at the start of `infer`. -/
def buildGraph (ont : List Triple) (ts : List Triple) : List Triple :=
  (ts.map (resolveTriple ont)).foldl setInsert []

/-- Rule `subclass_transitivity` (`_infer_subclass`): the SPARQL query
`?a rdfs:subClassOf ?b . ?b rdfs:subClassOf ?c . FILTER (?a != ?c)`. -/
def inferSubclass (g : List Triple) : List Triple :=
  asSet ((g.product g).filter (fun q =>
      q.1.2.1 = rdfsSubClassOf && q.2.2.1 = rdfsSubClassOf &&
      q.1.2.2 = q.2.1 && q.1.1 ≠ q.2.2.2)
    |>.map (fun q => (q.1.1, rdfsSubClassOf, q.2.2.2)))

/-- One expansion step of `_collect_superclasses`: add the objects of every
`rdfs:subClassOf` edge of the ontology whose subject is already collected. -/
def superStep (ont : List Triple) (s : List String) : List String :=
  setUnion s ((ont.filter (fun t => t.2.1 = rdfsSubClassOf && t.1 ∈ s)).map (·.2.2))

/-- Model of `_collect_superclasses(cls, ∅)`: the classes reachable from `cls` by one
or more `rdfs:subClassOf` edges of the ontology.  The Python recursion
terminates on its visited set; `ont.length` expansion steps from the direct
superclasses reach the same closure. -/
def superclasses (ont : List Triple) (cls : String) : List String :=
  (superStep ont)^[ont.length]
    (asSet ((ont.filter (fun t => t.1 = cls && t.2.1 = rdfsSubClassOf)).map (·.2.2)))

/-- Rule `type_propagation` (`_infer_type_propagation`): for each `(x, rdf:type, A)` of the graph and
each ontology-superclass `B` of `A`, infer `(x, rdf:type, B)` unless present. -/
def inferTypeProp (ont : List Triple) (g : List Triple) : List Triple :=
  (g.filter (fun t => t.2.1 = rdfType)).foldl
    (fun acc t =>
      setUnion acc (((superclasses ont t.2.2).filter
                      (fun sup => (t.1, rdfType, sup) ∉ g)).map
                     (fun sup => (t.1, rdfType, sup))))
    []

/-- Properties declared `rdf:type owl:SymmetricProperty` in the ontology. -/
def symmetricProps (ont : List Triple) : List String :=
  asSet ((ont.filter (fun t => t.2.1 = rdfType && t.2.2 = owlSymmetricProperty)).map (·.1))

/-- Rule `symmetric_properties` (`_infer_symmetric`): for each symmetric `p` of the ontology and each
`(s, p, o)` of the graph with `(o, p, s)` absent, infer `(o, p, s)`. -/
def inferSymmetric (ont : List Triple) (g : List Triple) : List Triple :=
  asSet ((g.filter (fun t =>
      t.2.1 ∈ symmetricProps ont && (t.2.2, t.2.1, t.1) ∉ g)).map
    (fun t => (t.2.2, t.2.1, t.1)))

/-- Properties declared `rdf:type owl:TransitiveProperty` in the ontology. -/
def transitiveProps (ont : List Triple) : List String :=
  asSet ((ont.filter (fun t => t.2.1 = rdfType && t.2.2 = owlTransitiveProperty)).map (·.1))

/-- Rule `transitive_properties` (`_infer_transitive`): chains `(a, p, b), (b, p, c)` of a transitive `p`
with `a ≠ c` yield `(a, p, c)`. -/
def inferTransitive (ont : List Triple) (g : List Triple) : List Triple :=
  asSet ((g.product g).filter (fun q =>
      q.1.2.1 ∈ transitiveProps ont && q.1.2.1 = q.2.2.1 &&
      q.1.2.2 = q.2.1 && q.1.1 ≠ q.2.2.2)
    |>.map (fun q => (q.1.1, q.1.2.1, q.2.2.2)))

/-- The `inverse_pairs` dict of `_infer_inverse`: for each
`(p1, owl:inverseOf, p2)` of the ontology, `p1 ↦ p2` then `p2 ↦ p1`,
later triples overwriting earlier entries. -/
def inversePairs (ont : List Triple) : String → Option String :=
  (ont.filter (fun t => t.2.1 = owlInverseOf)).foldl
    (fun f t => fun q =>
      if q = t.2.2 then some t.1
      else if q = t.1 then some t.2.2
      else f q)
    (fun _ => none)

/-- Rule `inverse_properties` (`_infer_inverse`): for each graph triple `(s, p, o)` with `p` in the
inverse map, infer `(o, inverse(p), s)`. -/
def inferInverse (ont : List Triple) (g : List Triple) : List Triple :=
  g.foldl
    (fun acc t =>
      match inversePairs ont t.2.1 with
      | some q => setInsert acc (t.2.2, q, t.1)
      | none => acc)
    []

/-- The `domains` (resp. `ranges`) dict of `_infer_domain_range`, keyed by
property URI, later ontology triples overwriting earlier entries. -/
def domainMap (ont : List Triple) : String → Option String :=
  (ont.filter (fun t => t.2.1 = rdfsDomain)).foldl
    (fun f t => fun q => if q = t.1 then some t.2.2 else f q)
    (fun _ => none)

def rangeMap (ont : List Triple) : String → Option String :=
  (ont.filter (fun t => t.2.1 = rdfsRange)).foldl
    (fun f t => fun q => if q = t.1 then some t.2.2 else f q)
    (fun _ => none)

/-- Rule `domain_range` (`_infer_domain_range`): a triple `(s, p, o)` with `domain(p) = D` absent as a type
of `s` yields `(s, rdf:type, D)`; symmetrically for ranges and `o`. -/
def inferDomainRange (ont : List Triple) (g : List Triple) : List Triple :=
  g.foldl
    (fun acc t =>
      let acc1 :=
        match domainMap ont t.2.1 with
        | some d => if (t.1, rdfType, d) ∈ g then acc else setInsert acc (t.1, rdfType, d)
        | none => acc
      match rangeMap ont t.2.1 with
      | some r => if (t.2.2, rdfType, r) ∈ g then acc1 else setInsert acc1 (t.2.2, rdfType, r)
      | none => acc1)
    []

/-- The `self.rules` dispatch table of `OWLReasoningAgent.__init__`;
unknown rule names are skipped by `infer`. -/
def applyRule (ont : List Triple) (name : String) (g : List Triple) : List Triple :=
  if name = "subclass_transitivity" then inferSubclass g
  else if name = "type_propagation" then inferTypeProp ont g
  else if name = "transitive_properties" then inferTransitive ont g
  else if name = "inverse_properties" then inferInverse ont g
  else if name = "domain_range" then inferDomainRange ont g
  else if name = "symmetric_properties" then inferSymmetric ont g
  else []

/-- Insertion order of `self.rules`, used when `rules=None`. -/
def allRules : List String :=
  ["subclass_transitivity", "type_propagation", "transitive_properties",
   "inverse_properties", "domain_range", "symmetric_properties"]

/-- The `inferred` set accumulated by the rule loop of `infer`. -/
def inferredSet (ont : List Triple) (rules : List String) (ts : List Triple) : List Triple :=
  let g := buildGraph ont ts
  rules.foldl (fun acc r => setUnion acc (applyRule ont r g)) []

/-- Result of `OWLReasoningAgent.infer` (the fields the claims are about;
`expansion_ratio`, `rules_applied` and `air_summary` are derived metrics and
logging).  `inferred` is the internal full-URI set; `inferredTriples` models
the returned `inferred_triples` list, each entry the truncation of an
internal one (Python iterates the set, so its order is unspecified). -/
structure InferResult where
  originalCount : Nat
  inferred : List Triple
  inferredTriples : List Triple
  deriving DecidableEq

/-- Model of `OWLReasoningAgent.infer(triples, rules)`; `rules = none` means the
Python default `None` (all rules). -/
def infer (ont : List Triple) (rules : Option (List String)) (ts : List Triple) : InferResult :=
  let rs := rules.getD allRules
  let s := inferredSet ont rs ts
  { originalCount := ts.length
    inferred := s
    inferredTriples := s.map truncTriple }

/-! Section: `OntologyValidator` (agents/validation/ontology_validator.py)

The LLM translation fallback (`translate_to_english`, a network call that
returns `None` on any failure) is an oracle parameter
`translate : String → String → String → Option Triple`. -/

/-- ASCII `str.lower` (all strings involved are ASCII). -/
def lowerChar (c : Char) : Char :=
  if 'A' ≤ c ∧ c ≤ 'Z' then Char.ofNat (c.toNat + 32) else c

def lowerStr (s : String) : String := ⟨s.data.map lowerChar⟩

/-- Python `str(uri).split('#')[-1].split('/')[-1]`, the local-name
extraction used by `_load_valid_properties` / `_load_ranges`. -/
def fragName (s : String) : String := afterLast '/' (afterLast '#' s)

/-- Python `prop.replace('_', ' ')`. -/
def underscoreToSpace (s : String) : String :=
  ⟨s.data.map (fun c => if c = '_' then ' ' else c)⟩

/-- Python `prop.replace(' ', '_').replace('-', '_')` (the predicate
normalisation of `validate_triple` / `_is_valid_property`). -/
def normUnderscore (s : String) : String :=
  ⟨s.data.map (fun c => if c = ' ' ∨ c = '-' then '_' else c)⟩

/-- Model of `_load_valid_properties`: local names of every `owl:ObjectProperty` or
`owl:DatatypeProperty` of the ontology, plus their lowercase and
underscore-to-space variations, plus the meta-properties. -/
def loadValidProperties (ont : List Triple) : List String :=
  let base := asSet ((ont.filter (fun t =>
      t.2.1 = rdfType && (t.2.2 = owlObjectProperty || t.2.2 = owlDatatypeProperty))).map
    (fun t => fragName t.1))
  setUnion (setUnion (setUnion base (base.map lowerStr)) (base.map underscoreToSpace))
    ["isA", "isa", "type"]

/-- Model of `_is_valid_property`: direct, lowercase, or underscore-normalised hit. -/
def isValidProperty (props : List String) (p : String) : Bool :=
  p ∈ props || lowerStr p ∈ props || normUnderscore p ∈ props

/-- Model of `_load_ranges`: property local name (and its lowercase) to range local
name, later ontology triples overwriting earlier entries. -/
def rangesLookup (ont : List Triple) : String → Option String :=
  (ont.filter (fun t => t.2.1 = rdfsRange)).foldl
    (fun f t => fun q =>
      if q = lowerStr (fragName t.1) then some (fragName t.2.2)
      else if q = fragName t.1 then some (fragName t.2.2)
      else f q)
    (fun _ => none)

/-- Is `needle` a substring of `hay` (Python `needle in hay`)? -/
def listContainsSub (needle : List Char) : List Char → Bool
  | [] => charsLead needle []
  | c :: cs => charsLead needle (c :: cs) || listContainsSub needle cs

def strContainsSub (hay needle : String) : Bool := listContainsSub needle.data hay.data

/-- The numeric-range test of `_validate_range`:
`"float" in expected.lower() or "decimal" in ... or "integer" in ...`. -/
def isNumericRange (expected : String) : Bool :=
  strContainsSub (lowerStr expected) "float" ||
  strContainsSub (lowerStr expected) "decimal" ||
  strContainsSub (lowerStr expected) "integer"

/-- Python `''.join(c for c in obj if c.isdigit() or c == '.')`. -/
def cleanNumeric (o : String) : String :=
  ⟨o.data.filter (fun c => c.isDigit || c = '.')⟩

/-- Python `float(s)` succeeds on a nonempty digits-and-dots string iff it
has at least one digit and at most one dot. -/
def isFloatLit (s : String) : Bool :=
  s.data.any (·.isDigit) && s.data.count '.' ≤ 1

/-- Model of `_validate_range`: errors appended for a numeric expected range whose
object is not numeric; class-typed ranges never produce errors. -/
def rangeErrors (o expected : String) : List String :=
  if isNumericRange expected then
    let clean := cleanNumeric o
    if clean = "" then
      ["Object '" ++ o ++ "' should be numeric (" ++ expected ++ ")"]
    else if isFloatLit clean then []
    else ["Object '" ++ o ++ "' must be a number (" ++ expected ++ ")"]
  else []

/-- The range-constraint errors of `validate_triple` step 3: look up the
normalised predicate in the ranges dict and check the object. -/
def rangeCheckErrors (ont : List Triple) (p o : String) : List String :=
  match rangesLookup ont (normUnderscore p) with
  | some expected => rangeErrors o expected
  | none => []

/-- The error text of `validate_triple` step 1 for an unknown predicate. -/
def predicateErrMsg (p : String) : String :=
  "Predicate '" ++ p ++ "' not in ontology"

/-- Result of `validate_triple` (the `suggestions` closest-match field is
advisory output only and is not modelled; `translated` is the
`suggestions["translated"]` triple of a translation rescue). -/
structure ValidationResult where
  valid : Bool
  errors : List String
  translated : Option Triple
  deriving DecidableEq

/-- The `errors` list computed by `validate_triple` before the translation
fallback: an invalid predicate is an error by itself; otherwise a
range-constrained predicate checks its object. -/
def validationErrors (ont : List Triple) (p o : String) : List String :=
  if isValidProperty (loadValidProperties ont) p then rangeCheckErrors ont p o
  else [predicateErrMsg p]

/-- Model of `OntologyValidator.validate_triple(subject, predicate, obj)`:
any error triggers the translation fallback, which rescues the triple iff
the translated predicate is valid. -/
def validateTriple (ont : List Triple)
    (translate : String → String → String → Option Triple)
    (s p o : String) : ValidationResult :=
  if validationErrors ont p o = [] then
    { valid := true, errors := [], translated := none }
  else
    match translate s p o with
    | some tr =>
        if isValidProperty (loadValidProperties ont) tr.2.1 then
          { valid := true, errors := [], translated := some tr }
        else
          { valid := false, errors := validationErrors ont p o, translated := none }
    | none =>
        { valid := false, errors := validationErrors ont p o, translated := none }

/-! Section: `IngestionService` (agents/domain/services/ingestion_service.py)

State held across `ingest` calls: the `seen_hashes` dedup cache (md5 digests
of `f"{s}|{p}|{o}"`; md5 is modelled as the identity on the encoded string,
since only digest equality is ever used) and the rows accumulated by the Rust
backend (`rust_client.ingest_triples(..., namespace=ns)`), modelled as
`(namespace, triple)` pairs with `connected = True`.  Provenance timestamps
and the optional OWL enrichment's inferred list come from outside the
function, so the reasoner is an `Option`al oracle (`owl_reasoner=None` is the
constructor default). -/

structure IngestStats where
  input : Nat
  validated : Nat
  duplicates : Nat
  enriched : Nat
  stored : Nat
  errors : List String
  deriving DecidableEq

structure IngestState where
  seenHashes : List String
  store : List (String × Triple)
  deriving DecidableEq

def emptyIngestState : IngestState := { seenHashes := [], store := [] }

/-- The dedup key `f"{triple[0]}|{triple[1]}|{triple[2]}"` of
`IngestionService._deduplicate` — no namespace component. -/
def tripleKey (t : Triple) : String := t.1 ++ "|" ++ t.2.1 ++ "|" ++ t.2.2

/-- One step of `_deduplicate`: the accumulator is
`(unique, seen_hashes, duplicates)`. -/
def dedupStep (acc : List Triple × List String × Nat) (t : Triple) :
    List Triple × List String × Nat :=
  if tripleKey t ∈ acc.2.1 then (acc.1, acc.2.1, acc.2.2 + 1)
  else (acc.1 ++ [t], setInsert acc.2.1 (tripleKey t), acc.2.2)

/-- Model of `_deduplicate`: keep first occurrences whose key is unseen, thread the
`seen_hashes` cache, count drops.  Returns `(unique, seen', duplicates)`. -/
def dedupFold (seen : List String) (ts : List Triple) : List Triple × List String × Nat :=
  ts.foldl dedupStep ([], seen, 0)

/-- The append loop of `_enrich`: add inferred triples not already present,
counting additions. -/
def enrichFold (base : List Triple) (inferred : List Triple) : List Triple × Nat :=
  inferred.foldl
    (fun acc t => if t ∈ acc.1 then acc else (acc.1 ++ [t], acc.2 + 1))
    (base, 0)

/-- The `stats["errors"]` entry of `_validate` for a rejected triple
(Python's tuple `repr` quoting is elided). -/
def validationErrorMsg (t : Triple) (errs : List String) : String :=
  "Validation failed for (" ++ t.1 ++ ", " ++ t.2.1 ++ ", " ++ t.2.2 ++ "): " ++
    String.intercalate ", " errs

/-- Model of `IngestionService.ingest(triples, ..., namespace)` with
`skip_enrichment=False`: validate, deduplicate, optionally enrich, add
provenance, batch-store into `namespace`.  (The early-return for an empty
input produces an all-zero result.) -/
def ingest (ont : List Triple)
    (translate : String → String → String → Option Triple)
    (reasoner : Option (List Triple → List Triple))
    (st : IngestState) (triples : List Triple) (ns : String) :
    IngestStats × IngestState :=
  if triples = [] then
    ({ input := 0, validated := 0, duplicates := 0, enriched := 0, stored := 0,
       errors := [] }, st)
  else
    let isValid := fun (t : Triple) => (validateTriple ont translate t.1 t.2.1 t.2.2).valid
    let validated := triples.filter isValid
    let valErrors := (triples.filter (fun t => !(isValid t))).map
      (fun t => validationErrorMsg t (validateTriple ont translate t.1 t.2.1 t.2.2).errors)
    let (unique, seen', dups) := dedupFold st.seenHashes validated
    let (enriched, added) :=
      match reasoner with
      | some inferFn => if unique = [] then (unique, 0) else enrichFold unique (inferFn unique)
      | none => (unique, 0)
    ({ input := triples.length
       validated := validated.length
       duplicates := dups
       enriched := added
       stored := enriched.length
       errors := valErrors },
     { seenHashes := seen'
       store := st.store ++ enriched.map (fun t => (ns, t)) })

/-! Section: `VectorStore` (agents/infrastructure/persistence/vector_store.py)

Vectors are `List ℚ` (an exact stand-in for float arrays; only lengths,
equality and squared norms are reasoned about).  The Qdrant backend is
modelled from its documented semantics: a map from collection name to a
distance configuration and a list of points, where `upsert` replaces every
point carrying the same id and `delete` removes the listed ids.  The
`uuid.uuid5(uuid.NAMESPACE_DNS, node_id)` point id is an opaque external hash,
passed in as a function parameter `uuid5`. -/

inductive Distance where
  | cosine
  deriving DecidableEq

structure StoredPoint where
  id : String
  vector : List ℚ
  payload : List (String × String)
  deriving DecidableEq

structure QCollection where
  distance : Distance
  size : Nat
  points : List StoredPoint
  deriving DecidableEq

/-- The Qdrant client state: collections by name. -/
structure QState where
  collections : String → Option QCollection

def QState.find (st : QState) (name : String) : Option QCollection :=
  st.collections name

def QState.setCollection (st : QState) (name : String) (c : QCollection) : QState :=
  ⟨fun n => if n = name then some c else st.collections n⟩

def emptyQState : QState := ⟨fun _ => none⟩

/-- The points of a collection (empty when absent). -/
def QState.pointsOf (st : QState) (name : String) : List StoredPoint :=
  match st.find name with
  | some c => c.points
  | none => []

/-- The `VectorStore` instance configuration (`__init__`). -/
structure VectorStore where
  baseCollectionName : String
  dimension : Nat
  tenantId : Option String
  deriving DecidableEq

/-- Model of `VectorStore.get_collection_name(tenant_id)`. -/
def getCollectionName (s : VectorStore) (tid : Option String) : String :=
  match tid with
  | some t => s.baseCollectionName ++ "_" ++ t
  | none =>
    match s.tenantId with
    | some t => s.baseCollectionName ++ "_" ++ t
    | none => s.baseCollectionName

/-- Model of `VectorStore._ensure_collection`: create (cosine distance, the store's
dimension) when absent. -/
def ensureCollection (s : VectorStore) (st : QState) (name : String) : QState :=
  match st.find name with
  | some _ => st
  | none => st.setCollection name { distance := .cosine, size := s.dimension, points := [] }

/-- Qdrant `upsert` of a single point: replace every point with the same id,
else append. -/
def upsertPoint (pts : List StoredPoint) (p : StoredPoint) : List StoredPoint :=
  if pts.any (fun q => q.id = p.id) then
    pts.map (fun q => if q.id = p.id then p else q)
  else pts ++ [p]

/-- The error message of the dimension guard in `VectorStore.add`. -/
def dimensionMismatchMsg (got expected : Nat) : String :=
  "Vector dimension mismatch: " ++ toString got ++ " != " ++ toString expected

/-- Model of `VectorStore.add(node_id, vector, metadata, tenant_id)`: raises
`ValueError` iff the vector length differs from the store's dimension, else
ensures the collection and upserts the point whose id is
`uuid5(node_id)`, whose vector is `vector.tolist()` unchanged, and whose
payload is `{"original_id": node_id, **metadata}`. -/
def VectorStore.add (uuid5 : String → String) (s : VectorStore) (st : QState)
    (nodeId : String) (vector : List ℚ) (metadata : List (String × String))
    (tid : Option String) : Except String QState :=
  if vector.length ≠ s.dimension then
    .error (dimensionMismatchMsg vector.length s.dimension)
  else
    let name := getCollectionName s tid
    let st1 := ensureCollection s st name
    let pts := st1.pointsOf name
    let cfg := (st1.find name).getD { distance := .cosine, size := s.dimension, points := [] }
    .ok (st1.setCollection name
      { cfg with points :=
          upsertPoint pts (StoredPoint.mk (uuid5 nodeId) vector
            (("original_id", nodeId) :: metadata)) })

/-- Model of `VectorStore.delete(node_id, tenant_id)`: computes the same
`uuid5(node_id)` point id and removes it from the tenant's collection. -/
def VectorStore.delete (uuid5 : String → String) (s : VectorStore) (st : QState)
    (nodeId : String) (tid : Option String) : QState :=
  let name := getCollectionName s tid
  match st.find name with
  | some c => st.setCollection name
      { c with points := c.points.filter (fun q => q.id ≠ uuid5 nodeId) }
  | none => st

/-- Squared Euclidean norm, to speak about L2 normalisation without square
roots: a vector is L2-normalised iff its squared norm is 1. -/
def sumSq (v : List ℚ) : ℚ := (v.map (fun x => x * x)).sum

/-! Section: `SPARQLEngine` (python-sdk/synapse/infrastructure/retrieval/sparql_engine.py)

`rdflib`'s `graph.query` — which raises on a syntactically invalid query — is
an oracle `eval : String → Except String (List Row)`, a row being the
variable-to-value dictionary `_row_to_dict` produces. -/

abbrev Row := List (String × String)

/-- Model of `SPARQLEngine.query`: evaluation errors are caught and returned as a
single `{"error": str(e)}` row. -/
def sparqlQuery (eval : String → Except String (List Row)) (q : String) : List Row :=
  match eval q with
  | .ok rows => rows
  | .error e => [[("error", e)]]

/-! Section: `MCPServer` (python-sdk/build/lib/synapse/infrastructure/web/mcp_server.py)

A tool handler wraps an engine operation that may raise, hence
`String → Except String String` (argument dict and JSON result both opaque
strings).  `self.tools` is the name-to-handler dict.  A response either has a
`content` array (modelled by its single text entry) or an `error` field. -/

structure MCPResponse where
  content : Option String
  error : Option String
  deriving DecidableEq

/-- Model of `MCPServer.call_tool`: unknown names report `Tool not found`, handler
exceptions are caught into the `error` field, successes are wrapped in a
content entry. -/
def callTool (tools : String → Option (String → Except String String))
    (name : String) (args : String) : MCPResponse :=
  match tools name with
  | none => { content := none, error := some ("Tool not found: " ++ name) }
  | some f =>
    match f args with
    | .ok r => { content := some r, error := none }
    | .error e => { content := none, error := some e }

/-- An MCP request: `method`, `params.name`, `params.arguments`
(`request.get("method")` may be absent). -/
structure MCPRequest where
  method : Option String
  toolName : String
  arguments : String
  deriving DecidableEq

/-- The `tools/list` response body (the static schema array of
`list_tools`; its JSON text is irrelevant to the dispatch claims). -/
def toolsListBody : String := "tools"

/-- Model of `MCPServer.handle_request`: dispatch on `method`
(`request.get("method")` absent formats as Python `None`). -/
def handleRequest (tools : String → Option (String → Except String String))
    (req : MCPRequest) : MCPResponse :=
  match req.method with
  | some m =>
      if m = "tools/list" then { content := some toolsListBody, error := none }
      else if m = "tools/call" then callTool tools req.toolName req.arguments
      else { content := none, error := some ("Unknown method: " ++ m) }
  | none => { content := none, error := some "Unknown method: None" }

/-! Section: Shared concrete instances and helper lemmas -/

/-- The translation oracle when the LLM call fails or is unavailable
(`translate_to_english` returns `None` on any exception). -/
def noTranslate : String → String → String → Option Triple := fun _ _ _ => none

/-- Accumulated `unique` triples of `_deduplicate` come from its input. -/
lemma dedup_aux_mem (ts : List Triple) :
    ∀ (acc : List Triple × List String × Nat) (x : Triple),
      x ∈ (ts.foldl dedupStep acc).1 → x ∈ acc.1 ∨ x ∈ ts := by
  induction ts with
  | nil => intro acc x h; exact Or.inl h
  | cons t ts ih =>
      intro acc x h
      rcases ih (dedupStep acc t) x h with h1 | h1
      · unfold dedupStep at h1
        by_cases hk : tripleKey t ∈ acc.2.1
        · rw [if_pos hk] at h1
          exact Or.inl h1
        · rw [if_neg hk] at h1
          rcases List.mem_append.mp h1 with h2 | h2
          · exact Or.inl h2
          · exact Or.inr (by simp [List.mem_singleton.mp h2])
      · exact Or.inr (List.mem_cons_of_mem t h1)

/-- The `unique` output of `_deduplicate` is a sublist of its input. -/
lemma dedupFold_fst_subset (seen : List String) (ts : List Triple) (x : Triple)
    (h : x ∈ (dedupFold seen ts).1) : x ∈ ts := by
  rcases dedup_aux_mem ts ([], seen, 0) x h with h1 | h1
  · simp at h1
  · exact h1

/-- A singleton whose key is already cached deduplicates to nothing. -/
lemma dedupFold_seen (seen : List String) (t : Triple) (h : tripleKey t ∈ seen) :
    dedupFold seen [t] = ([], seen, 1) := by
  simp [dedupFold, dedupStep, h]

/-! Section: Theorems — reasoner claims (C1, C2, C3, C10) -/

/-- Two-step subclass chain, full URIs and a CURIE predicate. -/
def c1Input : List Triple :=
  [("http://ex/A", "rdfs:subClassOf", "http://ex/B"),
   ("http://ex/B", "rdfs:subClassOf", "http://ex/C")]

/-- The `inferred_triples` the first `infer` call returns on `c1Input`
(truncated to last-slash segments). -/
def c1Returned : List Triple := [("A", "rdf-schema#subClassOf", "C")]

/-- Claim C1, counterexample: the first `infer` call on the two-step subclass
chain returns exactly one inferred triple, and a second call on the union of
the input and that returned list infers again — `inferred_triples` is not
empty, so reasoning is not idempotent. -/
theorem c1_counterexample :
    (infer [] none c1Input).inferredTriples = c1Returned ∧
    (infer [] none (c1Input ++ c1Returned)).inferredTriples ≠ [] := by decide

/-- Claim C1, amended: `infer` is a single pass over the rules, not a
fixpoint loop; because `_infer_subclass` does not filter out triples already
in the graph and returned triples are name-truncated, the second call on the
union of input and returned `inferred_triples` reports exactly the same
inference again (the same internal inferred set), not zero. -/
theorem c1_single_pass_not_idempotent :
    (infer [] none (c1Input ++ c1Returned)).inferredTriples = c1Returned ∧
    (infer [] none (c1Input ++ c1Returned)).inferred = (infer [] none c1Input).inferred := by
  decide

/-- The input of the symmetric-inference scenario: the SymmetricProperty
declaration and the Dave-spouse-Eve edge, as input triples. -/
def c2Input : List Triple :=
  [("http://ex/spouse", "rdf:type", "owl:SymmetricProperty"),
   ("http://ex/Dave", "http://ex/spouse", "http://ex/Eve")]

/-- An ontology graph carrying the SymmetricProperty declaration. -/
def c2Ont : List Triple := [("http://ex/spouse", rdfType, owlSymmetricProperty)]

/-- Claim C2, counterexample: with the SymmetricProperty declaration only in
the input triples (reasoner constructed over an empty ontology graph),
`infer` derives nothing at all — `_infer_symmetric` collects symmetric
properties from `self.ontology`, not from the input graph. -/
theorem c2_counterexample :
    (infer [] none c2Input).inferredTriples = [] ∧
    (infer [] none c2Input).inferred = [] := by decide

/-- Claim C2, amended: the reversed edge is inferred when the
SymmetricProperty declaration is in the reasoner's ontology graph; it then
appears in `inferred_triples` in last-slash-truncated form
`("Eve", "spouse", "Dave")`, so at least one triple is inferred. -/
theorem c2_symmetric_needs_ontology :
    ("http://ex/Eve", "http://ex/spouse", "http://ex/Dave") ∈
      (infer c2Ont none c2Input).inferred ∧
    ("Eve", "spouse", "Dave") ∈ (infer c2Ont none c2Input).inferredTriples ∧
    (infer c2Ont none c2Input).inferredTriples ≠ [] := by decide

/-- Subclass chain plus instance data, as input triples. -/
def c3Input : List Triple :=
  [("http://ex/Dog", "rdfs:subClassOf", "http://ex/Mammal"),
   ("http://ex/Mammal", "rdfs:subClassOf", "http://ex/Animal"),
   ("http://ex/Fido", "rdf:type", "http://ex/Dog")]

/-- An ontology graph carrying the subclass chain. -/
def c3Ont : List Triple :=
  [("http://ex/Dog", rdfsSubClassOf, "http://ex/Mammal"),
   ("http://ex/Mammal", rdfsSubClassOf, "http://ex/Animal")]

/-- Claim C3, counterexample: with the subclass chain only in the input
triples (empty ontology graph), `infer` derives only the subclass
transitivity edge `Dog ⊑ Animal` — no `rdf:type` triple for Fido is inferred
in either full or truncated form, because `_collect_superclasses` walks
`self.ontology`, not the input graph. -/
theorem c3_counterexample :
    (infer [] none c3Input).inferred =
      [("http://ex/Dog", rdfsSubClassOf, "http://ex/Animal")] ∧
    ("http://ex/Fido", rdfType, "http://ex/Mammal") ∉ (infer [] none c3Input).inferred ∧
    ("Fido", "22-rdf-syntax-ns#type", "Mammal") ∉ (infer [] none c3Input).inferredTriples := by
  decide

/-- Claim C3, amended: when the subclass chain is in the reasoner's ontology
graph, type propagation follows it over both steps: `infer` derives
`(Fido, rdf:type, Mammal)` and `(Fido, rdf:type, Animal)` internally, and
returns them in last-slash-truncated form. -/
theorem c3_type_propagation_via_ontology :
    ("http://ex/Fido", rdfType, "http://ex/Mammal") ∈ (infer c3Ont none c3Input).inferred ∧
    ("http://ex/Fido", rdfType, "http://ex/Animal") ∈ (infer c3Ont none c3Input).inferred ∧
    ("Fido", "22-rdf-syntax-ns#type", "Mammal") ∈
      (infer c3Ont none c3Input).inferredTriples ∧
    ("Fido", "22-rdf-syntax-ns#type", "Animal") ∈
      (infer c3Ont none c3Input).inferredTriples := by decide

/-- Accumulator invariant of `afterLastAux`: the separator never occurs in
the output when absent from the accumulator. -/
lemma not_mem_afterLastAux (sep : Char) :
    ∀ (cs acc : List Char), sep ∉ acc → sep ∉ afterLastAux sep cs acc := by
  intro cs
  induction cs with
  | nil => intro acc h; simpa [afterLastAux] using h
  | cons c cs ih =>
      intro acc h
      by_cases hc : c = sep
      · simpa [afterLastAux, hc] using ih [] (List.not_mem_nil sep)
      · have hac : sep ∉ acc ++ [c] := by
          intro hmem
          rcases List.mem_append.mp hmem with h1 | h1
          · exact h h1
          · exact hc (List.mem_singleton.mp h1).symm
        simpa [afterLastAux, hc] using ih (acc ++ [c]) hac

/-- The truncation of any term contains no slash. -/
lemma not_mem_lastSlashSegment (s : String) : '/' ∉ (lastSlashSegment s).data :=
  not_mem_afterLastAux '/' s.data [] (List.not_mem_nil _)

/-- Claim C10: every entry of the `inferred_triples` list returned by
`OWLReasoningAgent.infer` is the component-wise last-slash truncation of a
triple of the internal (full-URI) inferred set, and none of its three terms
contains a `'/'` — so full IRIs are never preserved in the output. -/
theorem c10_inferred_truncated (ont : List Triple) (rules : Option (List String))
    (ts : List Triple) (t : Triple)
    (h : t ∈ (infer ont rules ts).inferredTriples) :
    (∃ u ∈ (infer ont rules ts).inferred, t = truncTriple u) ∧
    '/' ∉ t.1.data ∧ '/' ∉ t.2.1.data ∧ '/' ∉ t.2.2.data := by
  have h' : t ∈ ((infer ont rules ts).inferred).map truncTriple := h
  rcases List.mem_map.mp h' with ⟨u, hu, rfl⟩
  exact ⟨⟨u, hu, rfl⟩, not_mem_lastSlashSegment _, not_mem_lastSlashSegment _,
    not_mem_lastSlashSegment _⟩

/-- Witness for C10 at a concrete symmetric-property inference: the
truncation of `http://ex/spouse` is `spouse`, full IRIs do not survive. -/
theorem c10_witness :
    (("Eve", "wife", "Dave") : Triple) ∈
      (infer [("http://ex/wife", rdfType, owlSymmetricProperty),
              ("http://ex/wife", owlInverseOf, "http://ex/husband")] none
        [("http://ex/Dave", "http://ex/wife", "http://ex/Eve")]).inferredTriples ∧
    ((∃ u ∈ (infer [("http://ex/wife", rdfType, owlSymmetricProperty),
                    ("http://ex/wife", owlInverseOf, "http://ex/husband")] none
               [("http://ex/Dave", "http://ex/wife", "http://ex/Eve")]).inferred,
        (("Eve", "wife", "Dave") : Triple) = truncTriple u) ∧
      '/' ∉ ("Eve" : String).data ∧ '/' ∉ ("wife" : String).data ∧
      '/' ∉ ("Dave" : String).data) :=
  ⟨by decide,
   c10_inferred_truncated _ none _ ("Eve", "wife", "Dave") (by decide)⟩

/-! Section: Theorems — ingestion claims (C4, C5) -/

/-- An ontology that declares `http://ex#p` an object property, so the
predicate `p` validates. -/
def c4Ont : List Triple := [("http://ex#p", rdfType, owlObjectProperty)]

def c4Triple : Triple := ("A", "p", "B")

/-- The service state after ingesting `c4Triple` into namespace `ns_a`. -/
def c4State1 : IngestState :=
  (ingest c4Ont noTranslate none emptyIngestState [c4Triple] "ns_a").2

/-- Claim C4, counterexample: after ingesting `(A, p, B)` into `ns_a`,
ingesting the identical triple into the different namespace `ns_b` is
dropped as a duplicate — the dedup key is the triple alone, not the quad —
so nothing is stored for `ns_b`. -/
theorem c4_counterexample :
    (ingest c4Ont noTranslate none emptyIngestState [c4Triple] "ns_a").1.stored = 1 ∧
    (ingest c4Ont noTranslate none emptyIngestState [c4Triple] "ns_a").2.store =
      [("ns_a", c4Triple)] ∧
    (ingest c4Ont noTranslate none c4State1 [c4Triple] "ns_b").1.duplicates = 1 ∧
    (ingest c4Ont noTranslate none c4State1 [c4Triple] "ns_b").1.stored = 0 ∧
    ("ns_b", c4Triple) ∉ (ingest c4Ont noTranslate none c4State1 [c4Triple] "ns_b").2.store := by
  decide

/-- Claim C4, amended: the duplicate key of `IngestionService._deduplicate`
is the triple `(s,p,o)` with no namespace component, and the `seen_hashes`
cache is shared across calls of one service instance; hence ingesting a
valid triple whose key is already cached is dropped as a duplicate whatever
the target namespace — nothing is stored and the backend store is
unchanged. -/
theorem c4_dedup_ignores_namespace (ont : List Triple)
    (translate : String → String → String → Option Triple)
    (st : IngestState) (t : Triple) (ns : String)
    (hseen : tripleKey t ∈ st.seenHashes)
    (hvalid : (validateTriple ont translate t.1 t.2.1 t.2.2).valid = true) :
    (ingest ont translate none st [t] ns).1.duplicates = 1 ∧
    (ingest ont translate none st [t] ns).1.stored = 0 ∧
    (ingest ont translate none st [t] ns).2.store = st.store := by
  have hne : ([t] : List Triple) ≠ [] := by simp
  simp only [ingest, if_neg hne]
  simp [List.filter_cons, hvalid, dedupFold_seen st.seenHashes t hseen]

/-- Witness for C4 at the cross-namespace scenario: the second ingestion
into `ns_b` is dropped by the shared cache. -/
theorem c4_witness :
    tripleKey c4Triple ∈ c4State1.seenHashes ∧
    ((ingest c4Ont noTranslate none c4State1 [c4Triple] "ns_b").1.duplicates = 1 ∧
     (ingest c4Ont noTranslate none c4State1 [c4Triple] "ns_b").1.stored = 0 ∧
     (ingest c4Ont noTranslate none c4State1 [c4Triple] "ns_b").2.store = c4State1.store) :=
  ⟨by decide,
   c4_dedup_ignores_namespace c4Ont noTranslate c4State1 c4Triple "ns_b"
     (by decide) (by decide)⟩

/-- An ontology with a datatype property `height` of range `xsd:float`. -/
def c5Ont : List Triple :=
  [("http://ex#height", rdfType, owlDatatypeProperty),
   ("http://ex#height", rdfsRange, "http://www.w3.org/2001/XMLSchema#float")]

/-- Claim C5, counterexample: the triple `(X, height, tall)` has a predicate
that is in the ontology, yet validation rejects it (numeric range constraint
on a non-numeric object, and the translation fallback fails) — so rejection
is not characterised by predicate validity alone.  With a numeric object the
same predicate is accepted. -/
theorem c5_counterexample :
    (validateTriple c5Ont noTranslate "X" "height" "tall").valid = false ∧
    isValidProperty (loadValidProperties c5Ont) "height" = true ∧
    (validateTriple c5Ont noTranslate "X" "height" "3.5").valid = true := by decide

/-- Claim C5, amended: validation rejects a triple exactly when its error
list is nonempty — predicate not in the ontology (up to case and
space/underscore normalisation) or a numeric range constraint violated by
the object — and the translation fallback fails to produce a valid
predicate; a triple rejected for an unknown predicate carries an error
naming the predicate; a triple whose translated predicate is valid is
accepted; a rejected triple is never stored by `ingest`. -/
theorem c5_validation_characterisation (ont : List Triple)
    (translate : String → String → String → Option Triple) (s p o : String) :
    ((validateTriple ont translate s p o).valid = false ↔
      ((isValidProperty (loadValidProperties ont) p = false ∨
        rangeCheckErrors ont p o ≠ []) ∧
       ∀ tr, translate s p o = some tr →
         isValidProperty (loadValidProperties ont) tr.2.1 = false)) ∧
    (isValidProperty (loadValidProperties ont) p = false →
      (validateTriple ont translate s p o).valid = false →
      predicateErrMsg p ∈ (validateTriple ont translate s p o).errors) ∧
    (∀ tr, translate s p o = some tr →
      isValidProperty (loadValidProperties ont) tr.2.1 = true →
      (validateTriple ont translate s p o).valid = true) ∧
    (∀ st triples ns nsx,
      (validateTriple ont translate s p o).valid = false →
      (nsx, (s, p, o)) ∈ (ingest ont translate none st triples ns).2.store →
      (nsx, (s, p, o)) ∈ st.store) := by
  refine ⟨?_, ?_, ?_, ?_⟩
  · by_cases hp : isValidProperty (loadValidProperties ont) p
    · by_cases hr : rangeCheckErrors ont p o = []
      · simp [validateTriple, validationErrors, hp, hr]
      · cases htr : translate s p o with
        | none => simp [validateTriple, validationErrors, hp, hr, htr]
        | some tr =>
            by_cases htp : isValidProperty (loadValidProperties ont) tr.2.1
            · simp [validateTriple, validationErrors, hp, hr, htr, htp]
            · simp [validateTriple, validationErrors, hp, hr, htr, htp]
    · cases htr : translate s p o with
      | none => simp [validateTriple, validationErrors, hp, htr]
      | some tr =>
          by_cases htp : isValidProperty (loadValidProperties ont) tr.2.1
          · simp [validateTriple, validationErrors, hp, htr, htp]
          · simp [validateTriple, validationErrors, hp, htr, htp]
  · intro hp hval
    by_cases hv : validationErrors ont p o = []
    · simp [validateTriple, hv] at hval
    · cases htr : translate s p o with
      | none => simp [validateTriple, hv, htr, validationErrors, hp]
      | some tr =>
          by_cases htp : isValidProperty (loadValidProperties ont) tr.2.1
          · exfalso
            simp [validateTriple, hv, htr, htp] at hval
          · simp [validateTriple, hv, htr, htp, validationErrors, hp]
  · intro tr htr htp
    by_cases hv : validationErrors ont p o = []
    · simp [validateTriple, hv]
    · simp [validateTriple, hv, htr, htp]
  · intro st triples ns nsx hfalse hmem
    by_cases ht : triples = []
    · simpa [ingest, ht] using hmem
    · simp only [ingest, if_neg ht] at hmem
      rcases List.mem_append.mp hmem with h1 | h1
      · exact h1
      · exfalso
        rcases List.mem_map.mp h1 with ⟨t, htmem, heq⟩
        have ht2 : t = (s, p, o) := congrArg Prod.snd heq
        subst ht2
        have hin := dedupFold_fst_subset st.seenHashes _ _ htmem
        have hval := (List.mem_filter.mp hin).2
        rw [hfalse] at hval
        exact Bool.false_ne_true hval

/-- Witness for C5: a triple with an unknown predicate is rejected with an
error naming the predicate and does not reach the store. -/
theorem c5_witness :
    (validateTriple [] noTranslate "X" "flies" "Y").valid = false ∧
    predicateErrMsg "flies" ∈ (validateTriple [] noTranslate "X" "flies" "Y").errors ∧
    ("ns_a", (("X", "flies", "Y") : Triple)) ∉
      (ingest [] noTranslate none emptyIngestState [("X", "flies", "Y")] "ns_a").2.store := by
  refine ⟨by decide, ?_, ?_⟩
  · exact (c5_validation_characterisation [] noTranslate "X" "flies" "Y").2.1
      (by decide) (by decide)
  · intro hmem
    have h := (c5_validation_characterisation [] noTranslate "X" "flies" "Y").2.2.2
      emptyIngestState [("X", "flies", "Y")] "ns_a" "ns_a" (by decide) hmem
    simp [emptyIngestState] at h

/-! Section: Theorems — vector store claims (C7, C8, C9) -/

lemma pointsOf_setCollection_self (st : QState) (name : String) (c : QCollection) :
    (st.setCollection name c).pointsOf name = c.points := by
  simp [QState.setCollection, QState.pointsOf, QState.find]

lemma find_setCollection_self (st : QState) (name : String) (c : QCollection) :
    (st.setCollection name c).find name = some c := by
  simp [QState.setCollection, QState.find]

lemma pointsOf_ensure (s : VectorStore) (st : QState) (name : String) :
    (ensureCollection s st name).pointsOf name = st.pointsOf name := by
  unfold ensureCollection
  cases h : st.find name with
  | some c => rfl
  | none => simp only [QState.pointsOf, find_setCollection_self, h]

lemma filter_map_replace (pts : List StoredPoint) (u : String) (p : StoredPoint)
    (hp : p.id = u) :
    (pts.map (fun q => if q.id = u then p else q)).filter (fun q => q.id = u) =
      (pts.filter (fun q => q.id = u)).map (fun _ => p) := by
  induction pts with
  | nil => simp
  | cons q pts ih =>
      by_cases hq : q.id = u
      · simp [hq, hp, ih]
      · simp [hq, ih]

lemma filter_filter_ne (pts : List StoredPoint) (u : String) :
    (pts.filter (fun q => q.id ≠ u)).filter (fun q => q.id = u) = [] := by
  induction pts with
  | nil => simp
  | cons q pts ih =>
      by_cases hq : q.id = u
      · simp [hq, ih]
      · simp [hq, ih]

/-- Workhorse for the vector-store claims: a well-dimensioned `add` succeeds
and the points carrying the deterministic id `uuid5 nid` afterwards are the
new point (replacing all previous carriers, appending when there were
none). -/
lemma add_filter_spec (uuid5 : String → String) (s : VectorStore) (st : QState)
    (nid : String) (v : List ℚ) (md : List (String × String)) (tid : Option String)
    (hlen : v.length = s.dimension) :
    ∃ st', VectorStore.add uuid5 s st nid v md tid = Except.ok st' ∧
      (st'.pointsOf (getCollectionName s tid)).filter (fun q => q.id = uuid5 nid) =
        (if (st.pointsOf (getCollectionName s tid)).any (fun q => q.id = uuid5 nid)
         then ((st.pointsOf (getCollectionName s tid)).filter
                 (fun q => q.id = uuid5 nid)).map
                (fun _ => (⟨uuid5 nid, v, ("original_id", nid) :: md⟩ : StoredPoint))
         else [⟨uuid5 nid, v, ("original_id", nid) :: md⟩]) := by
  simp only [VectorStore.add]
  rw [if_neg (by simp [hlen])]
  refine ⟨_, rfl, ?_⟩
  rw [pointsOf_setCollection_self]
  show (upsertPoint ((ensureCollection s st (getCollectionName s tid)).pointsOf
      (getCollectionName s tid)) ⟨uuid5 nid, v, ("original_id", nid) :: md⟩).filter
      (fun q => q.id = uuid5 nid) = _
  rw [pointsOf_ensure]
  by_cases hany : (st.pointsOf (getCollectionName s tid)).any
      (fun q => q.id = uuid5 nid) = true
  · rw [if_pos hany]
    simp only [upsertPoint]
    rw [if_pos hany]
    exact filter_map_replace _ (uuid5 nid) _ rfl
  · rw [if_neg hany]
    simp only [upsertPoint]
    rw [if_neg hany]
    rw [List.filter_append]
    have hnil : (st.pointsOf (getCollectionName s tid)).filter
        (fun q => q.id = uuid5 nid) = [] := by
      refine List.filter_eq_nil_iff.mpr ?_
      intro a ha hpa
      exact hany (List.any_eq_true.mpr ⟨a, ha, by simpa using hpa⟩)
    rw [hnil]
    simp

/-- After `VectorStore.delete(node_id)` no point with the id computed from
`node_id` remains in the tenant's collection. -/
lemma delete_removes (uuid5 : String → String) (s : VectorStore) (st : QState)
    (nid : String) (tid : Option String) :
    ((VectorStore.delete uuid5 s st nid tid).pointsOf (getCollectionName s tid)).filter
      (fun q => q.id = uuid5 nid) = [] := by
  unfold VectorStore.delete
  cases h : st.find (getCollectionName s tid) with
  | none => simp [QState.pointsOf, h]
  | some c => simp [h, pointsOf_setCollection_self, filter_filter_ne]

/-- Claim C7: `VectorStore.add` raises the dimension-mismatch `ValueError`
exactly when the vector's length differs from the store's fixed dimension —
the guard runs before any write (the error result carries no state change)
and a vector of exactly the fixed dimension never produces it. -/
theorem c7_dimension_guard (uuid5 : String → String) (s : VectorStore) (st : QState)
    (nid : String) (v : List ℚ) (md : List (String × String)) (tid : Option String) :
    (v.length ≠ s.dimension →
      VectorStore.add uuid5 s st nid v md tid =
        Except.error (dimensionMismatchMsg v.length s.dimension)) ∧
    (v.length = s.dimension →
      ∃ st', VectorStore.add uuid5 s st nid v md tid = Except.ok st') := by
  constructor
  · intro h
    simp [VectorStore.add, h]
  · intro h
    obtain ⟨st', he, hf⟩ := add_filter_spec uuid5 s st nid v md tid h
    exact ⟨st', he⟩

/-- A concrete stand-in for the external `uuid.uuid5(NAMESPACE_DNS, ·)`
hash (the claims hold for every such function). -/
def idHash : String → String := fun x => x

/-- A `VectorStore("semantic_graph", dimension=2)` with no tenant. -/
def c8Store : VectorStore := ⟨"semantic_graph", 2, none⟩

/-- The points stored by a successful `add` (empty on error). -/
def addResultPoints (r : Except String QState) (name : String) : List StoredPoint :=
  match r with
  | .ok st => st.pointsOf name
  | .error _ => []

/-- Witness for C7: dimension 1 against a dimension-2 store raises, a
dimension-2 vector succeeds. -/
theorem c7_witness :
    (([(1 : ℚ)] : List ℚ).length ≠ c8Store.dimension ∧
      VectorStore.add idHash c8Store emptyQState "n" [(1 : ℚ)] [] none =
        Except.error (dimensionMismatchMsg 1 2)) ∧
    (([(1 : ℚ), 3] : List ℚ).length = c8Store.dimension ∧
      ∃ st', VectorStore.add idHash c8Store emptyQState "n" [(1 : ℚ), 3] [] none =
        Except.ok st') :=
  ⟨⟨by decide, (c7_dimension_guard idHash c8Store emptyQState "n" [(1 : ℚ)] [] none).1
      (by decide)⟩,
   ⟨by decide, (c7_dimension_guard idHash c8Store emptyQState "n" [(1 : ℚ), 3] [] none).2
      (by decide)⟩⟩

/-- Claim C8, counterexample: `add` stores `vector.tolist()` unchanged — the
accepted vector `[2, 0]` is stored as `[2, 0]`, whose squared norm is 4, not
1: no L2 normalisation happens on insert. -/
theorem c8_counterexample :
    addResultPoints (VectorStore.add idHash c8Store emptyQState "n1" [2, 0] [] none)
        "semantic_graph" =
      [⟨"n1", [2, 0], [("original_id", "n1")]⟩] ∧
    sumSq [2, 0] ≠ 1 := by
  constructor
  · decide
  · norm_num [sumSq]

/-- Claim C8, amended: the vector value actually stored by `add` is the
input vector itself, unchanged — the code performs no L2 normalisation and
delegates cosine handling to the Qdrant collection (created with cosine
distance); the stored record for a fresh `node_id` is exactly
`(uuid5 node_id, v, original_id payload)`. -/
theorem c8_add_stores_raw (uuid5 : String → String) (s : VectorStore) (st : QState)
    (nid : String) (v : List ℚ) (md : List (String × String)) (tid : Option String)
    (hlen : v.length = s.dimension)
    (hfresh : (st.pointsOf (getCollectionName s tid)).filter
        (fun q => q.id = uuid5 nid) = []) :
    ∃ st', VectorStore.add uuid5 s st nid v md tid = Except.ok st' ∧
      (st'.pointsOf (getCollectionName s tid)).filter (fun q => q.id = uuid5 nid) =
        [⟨uuid5 nid, v, ("original_id", nid) :: md⟩] := by
  obtain ⟨st', he, hf⟩ := add_filter_spec uuid5 s st nid v md tid hlen
  refine ⟨st', he, ?_⟩
  rw [hf]
  have hany : (st.pointsOf (getCollectionName s tid)).any
      (fun q => q.id = uuid5 nid) = false := by
    rw [List.any_eq_false]
    intro a ha
    have := List.filter_eq_nil_iff.mp hfresh a ha
    simpa using this
  rw [hany]
  simp

/-- Witness for C8: a concrete non-unit vector is stored verbatim. -/
theorem c8_witness :
    ((([(1 : ℚ), 0] : List ℚ).length = c8Store.dimension) ∧
      ((emptyQState.pointsOf (getCollectionName c8Store none)).filter
        (fun q => q.id = idHash "n1") = []) ∧
      ∃ st', VectorStore.add idHash c8Store emptyQState "n1" [(1 : ℚ), 0] [] none =
          Except.ok st' ∧
        (st'.pointsOf (getCollectionName c8Store none)).filter
            (fun q => q.id = idHash "n1") =
          [⟨idHash "n1", [(1 : ℚ), 0], [("original_id", "n1")]⟩]) :=
  ⟨by decide, by decide,
   c8_add_stores_raw idHash c8Store emptyQState "n1" [(1 : ℚ), 0] [] none
     (by decide) (by decide)⟩

/-- Claim C9: the stored point id is `uuid5(node_id)`, a deterministic
function of `node_id` alone, and `delete` computes the same id; adding twice
for the same `node_id` leaves exactly one record carrying that id — the
later one — and a following delete removes it. -/
theorem c9_upsert_then_delete (uuid5 : String → String) (s : VectorStore)
    (st : QState) (nid : String) (v1 v2 : List ℚ)
    (md1 md2 : List (String × String)) (tid : Option String)
    (h1 : v1.length = s.dimension) (h2 : v2.length = s.dimension)
    (hfresh : (st.pointsOf (getCollectionName s tid)).filter
        (fun q => q.id = uuid5 nid) = []) :
    ∃ st1 st2,
      VectorStore.add uuid5 s st nid v1 md1 tid = Except.ok st1 ∧
      VectorStore.add uuid5 s st1 nid v2 md2 tid = Except.ok st2 ∧
      (st2.pointsOf (getCollectionName s tid)).filter (fun q => q.id = uuid5 nid) =
        [⟨uuid5 nid, v2, ("original_id", nid) :: md2⟩] ∧
      ((VectorStore.delete uuid5 s st2 nid tid).pointsOf (getCollectionName s tid)).filter
          (fun q => q.id = uuid5 nid) = [] := by
  obtain ⟨st1, he1, hf1⟩ := add_filter_spec uuid5 s st nid v1 md1 tid h1
  have hany1 : (st.pointsOf (getCollectionName s tid)).any
      (fun q => q.id = uuid5 nid) = false := by
    rw [List.any_eq_false]
    intro a ha
    have := List.filter_eq_nil_iff.mp hfresh a ha
    simpa using this
  rw [hany1] at hf1
  simp only [Bool.false_eq_true, if_false] at hf1
  obtain ⟨st2, he2, hf2⟩ := add_filter_spec uuid5 s st1 nid v2 md2 tid h2
  have hany2 : (st1.pointsOf (getCollectionName s tid)).any
      (fun q => q.id = uuid5 nid) = true := by
    rw [List.any_eq_true]
    refine ⟨⟨uuid5 nid, v1, ("original_id", nid) :: md1⟩, ?_, by simp⟩
    have : (⟨uuid5 nid, v1, ("original_id", nid) :: md1⟩ : StoredPoint) ∈
        (st1.pointsOf (getCollectionName s tid)).filter (fun q => q.id = uuid5 nid) := by
      rw [hf1]
      exact List.mem_singleton_self _
    exact (List.mem_filter.mp this).1
  rw [hany2] at hf2
  simp only [if_true] at hf2
  rw [hf1] at hf2
  refine ⟨st1, st2, he1, he2, by simpa using hf2, delete_removes uuid5 s st2 nid tid⟩

/-- Witness for C9: two adds for `n2` then a delete, on a concrete store. -/
theorem c9_witness :
    ((([(2 : ℚ), 0] : List ℚ).length = c8Store.dimension) ∧
      (([(3 : ℚ), 1] : List ℚ).length = c8Store.dimension) ∧
      ((emptyQState.pointsOf (getCollectionName c8Store none)).filter
        (fun q => q.id = idHash "n2") = []) ∧
      ∃ st1 st2,
        VectorStore.add idHash c8Store emptyQState "n2" [(2 : ℚ), 0] [] none =
          Except.ok st1 ∧
        VectorStore.add idHash c8Store st1 "n2" [(3 : ℚ), 1] [] none = Except.ok st2 ∧
        (st2.pointsOf (getCollectionName c8Store none)).filter
            (fun q => q.id = idHash "n2") =
          [⟨idHash "n2", [(3 : ℚ), 1], [("original_id", "n2")]⟩] ∧
        ((VectorStore.delete idHash c8Store st2 "n2" none).pointsOf
            (getCollectionName c8Store none)).filter (fun q => q.id = idHash "n2") = []) :=
  ⟨by decide, by decide, by decide,
   c9_upsert_then_delete idHash c8Store emptyQState "n2" [(2 : ℚ), 0] [(3 : ℚ), 1] [] []
     none (by decide) (by decide) (by decide)⟩

/-! Section: Theorems — transport / SPARQL claim (C6) -/

/-- A concrete tool table with one always-throwing handler. -/
def c6Tools : String → Option (String → Except String String) :=
  fun n => if n = "boom_tool" then some (fun _ => Except.error "boom") else none

/-- Claim C6: `handle_request`, `call_tool` and `SPARQLEngine.query` are
total and contain every failure in the returned value: each request gets a
response with a content or an error field; an unknown tool name yields a
`Tool not found` error; a throwing handler's exception is caught into the
error field; an evaluation (e.g. parse) error of a SPARQL query comes back
as an error row, and a successful evaluation passes the rows through. -/
theorem c6_no_uncaught_exceptions
    (tools : String → Option (String → Except String String)) (req : MCPRequest) :
    ((handleRequest tools req).content.isSome = true ∨
      (handleRequest tools req).error.isSome = true) ∧
    (req.method = some "tools/call" → tools req.toolName = none →
      handleRequest tools req =
        { content := none, error := some ("Tool not found: " ++ req.toolName) }) ∧
    (∀ f e, req.method = some "tools/call" → tools req.toolName = some f →
      f req.arguments = Except.error e →
      handleRequest tools req = { content := none, error := some e }) ∧
    (∀ ev q e, ev q = Except.error e → sparqlQuery ev q = [[("error", e)]]) ∧
    (∀ ev q rows, ev q = Except.ok rows → sparqlQuery ev q = rows) := by
  refine ⟨?_, ?_, ?_, ?_, ?_⟩
  · cases hm : req.method with
    | none => simp [handleRequest, hm]
    | some m =>
        by_cases h1 : m = "tools/list"
        · simp [handleRequest, hm, h1]
        · by_cases h2 : m = "tools/call"
          · cases htool : tools req.toolName with
            | none => simp [handleRequest, hm, h1, h2, callTool, htool]
            | some f =>
                cases hf : f req.arguments with
                | ok r => simp [handleRequest, hm, h1, h2, callTool, htool, hf]
                | error e => simp [handleRequest, hm, h1, h2, callTool, htool, hf]
          · simp [handleRequest, hm, h1, h2]
  · intro hm htool
    simp [handleRequest, hm, callTool, htool]
  · intro f e hm htool hf
    simp [handleRequest, hm, callTool, htool, hf]
  · intro ev q e h
    simp [sparqlQuery, h]
  · intro ev q rows h
    simp [sparqlQuery, h]

/-- Witness for C6: concrete unknown-tool, throwing-handler, parse-error and
unknown-method requests all come back as error responses. -/
theorem c6_witness :
    handleRequest c6Tools ⟨some "tools/call", "nope", "x"⟩ =
      { content := none, error := some ("Tool not found: " ++ "nope") } ∧
    handleRequest c6Tools ⟨some "tools/call", "boom_tool", "x"⟩ =
      { content := none, error := some "boom" } ∧
    sparqlQuery (fun _ => Except.error "ParseError at 1:1") "SELEC" =
      [[("error", "ParseError at 1:1")]] ∧
    ((handleRequest c6Tools ⟨some "nope_method", "t", "x"⟩).content.isSome = true ∨
      (handleRequest c6Tools ⟨some "nope_method", "t", "x"⟩).error.isSome = true) :=
  ⟨(c6_no_uncaught_exceptions c6Tools ⟨some "tools/call", "nope", "x"⟩).2.1 rfl rfl,
   (c6_no_uncaught_exceptions c6Tools ⟨some "tools/call", "boom_tool", "x"⟩).2.2.1
     (fun _ => Except.error "boom") "boom" rfl rfl rfl,
   (c6_no_uncaught_exceptions c6Tools ⟨some "tools/call", "t", "x"⟩).2.2.2.1
     (fun _ => Except.error "ParseError at 1:1") "SELEC" "ParseError at 1:1" rfl,
   (c6_no_uncaught_exceptions c6Tools ⟨some "nope_method", "t", "x"⟩).1⟩

end Synapse
